import Mathlib

/-!
A shallow embedding of `recommendation_engine.py` (class `ProgramRecommender`,
its helper `main`-time printer, and the similarity pipeline it builds with
scikit-learn's `TfidfVectorizer(stop_words='english')`, `cosine_similarity`
and `numpy`'s row-wise `argmax`).

Modelling conventions:

* A Python program dictionary is a `Program` record of four optional string
  fields (`p.get(k)` is `Option.getD`-style tolerant access; `p[k]` is strict
  access that raises `KeyError`).
* The scikit-learn vectorizer is embedded from its documented default
  behaviour, which the spec also describes: documents are lowercased, split
  into maximal runs of word characters, tokens shorter than two characters
  are dropped (token pattern `\b\w\w+\b`), English stop words are removed,
  the vocabulary is the set of surviving terms of the fitted corpus, and the
  entry of a document vector at term `t` is `tf(t, d) * idf(N, df(t))`.
  scikit-learn's idf value `ln((1+N)/(1+df)) + 1` is irrational, so the
  pipeline is parametric in a rational weight `idf : ℕ → ℕ → ℚ` taking the
  corpus size and the document frequency; every theorem below is proved for
  all `idf`, and concrete evaluations instantiate it.
* `fit_transform` raises `ValueError: empty vocabulary; perhaps the
  documents only contain stop words` when no token survives; this is the
  `Except.error emptyVocabularyError` branch.
* Similarity values are represented by `simSq u v`, the square of the cosine
  similarity of `u` and `v` (a rational number, with the `0/0 = 0` convention
  matching scikit-learn's treatment of zero vectors).  The real pipeline's
  tf-idf entries are nonnegative, so all cosine similarities are nonnegative
  and squaring preserves the order used by `argmax`; the selected indices are
  therefore the same.
* Machine floating point is idealised as exact rational arithmetic.
-/

/-- One catalog entry: a Python dict with the four fields the program reads.
Absent fields are `none`. -/
structure Program where
  name : Option String
  category : Option String
  notes : Option String
  venue : Option String
deriving DecidableEq

/-- Default record used for total list indexing in theorem statements. -/
def noneProgram : Program := ⟨none, none, none, none⟩

instance : Inhabited Program := ⟨noneProgram⟩

/-- Line 44/67 of the source: the synthesized document
`f"{p.get('name', '')} {p.get('category', '')} {p.get('notes', '')}"`. -/
def desc (p : Program) : String :=
  p.name.getD "" ++ " " ++ p.category.getD "" ++ " " ++ p.notes.getD ""

/-- Word characters of the token pattern `\w` (ASCII fragment). -/
def isWordChar (c : Char) : Bool := c.isAlphanum || c = '_'

/-- Splits a character list into the maximal runs of word characters
(the non-overlapping matches of `\b\w+\b`). `acc` holds the current run,
reversed. -/
def splitRunsAux : List Char → List Char → List (List Char)
  | [], acc => if acc.isEmpty then [] else [acc.reverse]
  | c :: cs, acc =>
    if isWordChar c then splitRunsAux cs (c :: acc)
    else if acc.isEmpty then splitRunsAux cs [] else acc.reverse :: splitRunsAux cs []

/-- Maximal runs of word characters in a character list. -/
def splitRuns (l : List Char) : List (List Char) := splitRunsAux l []

/-- Modelled from the spec (and scikit-learn's documented default): the
`ENGLISH_STOP_WORDS` frozenset used by `TfidfVectorizer(stop_words='english')`.
The source only names the list; its contents are scikit-learn's. -/
def sklearnStopWords : List String :=
  ["a", "about", "above", "across", "after", "afterwards", "again", "against",
   "all", "almost", "alone", "along", "already", "also", "although", "always",
   "am", "among", "amongst", "amoungst", "amount", "an", "and", "another",
   "any", "anyhow", "anyone", "anything", "anyway", "anywhere", "are",
   "around", "as", "at", "back", "be", "became", "because", "become",
   "becomes", "becoming", "been", "before", "beforehand", "behind", "being",
   "below", "beside", "besides", "between", "beyond", "bill", "both",
   "bottom", "but", "by", "call", "can", "cannot", "cant", "co", "con",
   "could", "couldnt", "cry", "de", "describe", "detail", "do", "done",
   "down", "due", "during", "each", "eg", "eight", "either", "eleven",
   "else", "elsewhere", "empty", "enough", "etc", "even", "ever", "every",
   "everyone", "everything", "everywhere", "except", "few", "fifteen",
   "fifty", "fill", "find", "fire", "first", "five", "for", "former",
   "formerly", "forty", "found", "four", "from", "front", "full", "further",
   "get", "give", "go", "had", "has", "hasnt", "have", "he", "hence", "her",
   "here", "hereafter", "hereby", "herein", "hereupon", "hers", "herself",
   "him", "himself", "his", "how", "however", "hundred", "i", "ie", "if",
   "in", "inc", "indeed", "interest", "into", "is", "it", "its", "itself",
   "keep", "last", "latter", "latterly", "least", "less", "ltd", "made",
   "many", "may", "me", "meanwhile", "might", "mill", "mine", "more",
   "moreover", "most", "mostly", "move", "much", "must", "my", "myself",
   "namely", "neither", "never", "nevertheless", "next", "nine", "no",
   "nobody", "none", "noone", "nor", "not", "nothing", "now", "nowhere",
   "of", "off", "often", "on", "once", "one", "only", "onto", "or", "other",
   "others", "otherwise", "our", "ours", "ourselves", "out", "over", "own",
   "part", "per", "perhaps", "please", "put", "rather", "re", "same", "see",
   "seem", "seemed", "seeming", "seems", "serious", "several", "she",
   "should", "show", "side", "since", "sincere", "six", "sixty", "so",
   "some", "somehow", "someone", "something", "sometime", "sometimes",
   "somewhere", "still", "such", "system", "take", "ten", "than", "that",
   "the", "their", "them", "themselves", "then", "thence", "there",
   "thereafter", "thereby", "therefore", "therein", "thereupon", "these",
   "they", "thick", "thin", "third", "this", "those", "though", "three",
   "through", "throughout", "thru", "thus", "to", "together", "too", "top",
   "toward", "towards", "twelve", "twenty", "two", "un", "under", "until",
   "up", "upon", "us", "very", "via", "was", "we", "well", "were", "what",
   "whatever", "when", "whence", "whenever", "where", "whereafter",
   "whereas", "whereby", "wherein", "whereupon", "wherever", "whether",
   "which", "while", "whither", "who", "whoever", "whole", "whom", "whose",
   "why", "will", "with", "within", "without", "would", "yet", "you",
   "your", "yours", "yourself", "yourselves"]

/-- The analyzer of `TfidfVectorizer(stop_words='english')`: lowercase,
extract word tokens of length at least two, remove English stop words. -/
def tokenize (s : String) : List String :=
  (((splitRuns (s.toList.map Char.toLower)).filter fun r => 2 ≤ r.length).map
    fun r => String.mk r).filter fun t => !(sklearnStopWords.contains t)

/-- The fitted vocabulary: all distinct surviving tokens of the corpus. -/
def vocab (docs : List String) : List String :=
  (docs.flatMap tokenize).eraseDups

/-- Document frequency of term `t` in the fitted corpus. -/
def docFreq (docs : List String) (t : String) : ℕ :=
  docs.countP fun d => (tokenize d).contains t

/-- Term frequency of `t` in document `d`. -/
def termCount (d : String) (t : String) : ℕ := (tokenize d).count t

/-- The (unnormalised) tf-idf vector of document `d` in the feature space
fitted on `docs`, listed in vocabulary order.  scikit-learn additionally
L2-normalises each row; cosine similarity is invariant under that, so the
normalisation is left to `simSq`. -/
def vecOf (idf : ℕ → ℕ → ℚ) (docs : List String) (d : String) : List ℚ :=
  (vocab docs).map fun t => (termCount d t : ℚ) * idf docs.length (docFreq docs t)

/-- Dot product of two vectors (trailing entries beyond the common length
contribute nothing; all pipeline vectors share the vocabulary length). -/
def dotp (u v : List ℚ) : ℚ := (List.zipWith (· * ·) u v).sum

/-- Squared Euclidean norm. -/
def normSq (u : List ℚ) : ℚ := dotp u u

/-- Square of the cosine similarity of `u` and `v`.  For zero vectors the
rational convention `x / 0 = 0` yields `0`, exactly scikit-learn's
`cosine_similarity` convention of treating zero rows as zero similarity. -/
def simSq (u v : List ℚ) : ℚ := (dotp u v) ^ 2 / (normSq u * normSq v)

/-- Row-wise `numpy.argmax`: the index of the first occurrence of the
maximum value of the list (`0` on the empty list, which the pipeline never
produces). -/
def argmax : List ℚ → ℕ
  | [] => 0
  | [_] => 0
  | x :: y :: ys =>
    let r := argmax (y :: ys)
    if x < (y :: ys).getD r 0 then r + 1 else 0

/-- Python slice `l[:n]` for an arbitrary (possibly negative) `n`. -/
def pySlice (n : Int) (l : List α) : List α :=
  if 0 ≤ n then l.take n.toNat else l.take (l.length - (-n).toNat)

/-- Python list indexing `l[i]` for a nonnegative index; raises `IndexError`
when out of range. -/
def pyGetElem (l : List α) (i : ℕ) : Except String α :=
  if h : i < l.length then .ok l[i] else .error "IndexError: list index out of range"

/-- Line 54 of the source: `p.get('category') in user_categories`.  Strict
`None` is never equal to a string, so an absent category never matches. -/
def matchesCat (cats : List String) (p : Program) : Bool :=
  match p.category with
  | some c => cats.contains c
  | none => false

/-- Line 43: the synthesized documents of the whole catalog. -/
def descriptions (ps : List Program) : List String := ps.map desc

/-- Line 49: `self.vectorizer.fit_transform(descriptions)` (rows of the
catalog tf-idf matrix, unnormalised; see `vecOf`). -/
def tfidf_matrix (idf : ℕ → ℕ → ℚ) (ps : List Program) : List (List ℚ) :=
  (descriptions ps).map (vecOf idf (descriptions ps))

/-- Line 52: the records whose category is one of the requested ones. -/
def category_matches (ps : List Program) (cats : List String) : List Program :=
  ps.filter (matchesCat cats)

/-- Lines 66-70: `self.vectorizer.transform(category_descriptions)` — the
candidates are projected into the feature space fitted on the full catalog. -/
def category_tfidf (idf : ℕ → ℕ → ℚ) (ps : List Program) (cats : List String) :
    List (List ℚ) :=
  (category_matches ps cats).map fun p => vecOf idf (descriptions ps) (desc p)

/-- Line 73: `cosine_similarity(category_tfidf, tfidf_matrix)`, one row per
candidate, one column per catalog record (squared entries; see `simSq`). -/
def similarities (idf : ℕ → ℕ → ℚ) (ps : List Program) (cats : List String) :
    List (List ℚ) :=
  (category_tfidf idf ps cats).map fun c => (tfidf_matrix idf ps).map (simSq c)

/-- Line 76: `similarities.argmax(axis=1)`. -/
def similar_program_indices (idf : ℕ → ℕ → ℚ) (ps : List Program)
    (cats : List String) : List ℕ :=
  (similarities idf ps cats).map argmax

/-- The message of the `ValueError` scikit-learn raises when fitting a corpus
in which no token survives tokenization and stop-word removal. -/
def emptyVocabularyError : String :=
  "empty vocabulary; perhaps the documents only contain stop words"

/-- Lines 29-81: `ProgramRecommender.generate_recommendations`.  The returned
value is the Python return value; raised exceptions are `Except.error`
(the vectorizer's empty-vocabulary `ValueError`, and `IndexError` from
`self.programs[i]`, which in fact never fires). -/
def generate_recommendations (idf : ℕ → ℕ → ℚ) (programs : List Program)
    (user_categories : List String) (top_n : Int) : Except String (List Program) :=
  if programs.isEmpty then .ok []
  else if (vocab (descriptions programs)).isEmpty then .error emptyVocabularyError
  else if (category_matches programs user_categories).isEmpty then .ok []
  else
    (pySlice top_n (similar_program_indices idf programs user_categories)).mapM
      (pyGetElem programs)

/-- The informational messages the recommender prints, represented
structurally (line 39 `No programs available.`, line 58 the debugging line,
line 62 `No programs found for the selected categories: ...`). -/
inductive Note where
  | noPrograms : Note
  | matching : List String → List Program → Note
  | noneFound : List String → Note
deriving DecidableEq

/-- The sequence of messages printed by one `generate_recommendations` call
(the empty-vocabulary `ValueError` aborts before any message is printed). -/
def generate_notes (programs : List Program) (user_categories : List String) :
    List Note :=
  if programs.isEmpty then [Note.noPrograms]
  else if (vocab (descriptions programs)).isEmpty then []
  else if (category_matches programs user_categories).isEmpty then
    [Note.matching user_categories (category_matches programs user_categories),
     Note.noneFound user_categories]
  else [Note.matching user_categories (category_matches programs user_categories)]

/-- Line 141 of the source: the printer
`f"Program Name: {program['name']}, Category: {program['category']}, Venue: {program['venue']}"`
with strict dictionary accesses, evaluated left to right; an absent field
raises `KeyError`. `notes` is never accessed. -/
def printProgram (p : Program) : Except String String :=
  match p.name with
  | none => .error "KeyError: name"
  | some n =>
    match p.category with
    | none => .error "KeyError: category"
    | some c =>
      match p.venue with
      | none => .error "KeyError: venue"
      | some v => .ok ("Program Name: " ++ n ++ ", Category: " ++ c ++ ", Venue: " ++ v)

instance {ε α : Type} [DecidableEq ε] [DecidableEq α] : DecidableEq (Except ε α) :=
  fun x y =>
  match x, y with
  | .ok a, .ok b =>
    match decEq a b with
    | isTrue h => isTrue (h ▸ rfl)
    | isFalse h => isFalse fun hh => h (Except.ok.inj hh)
  | .ok _, .error _ => isFalse fun hh => Except.noConfusion hh
  | .error _, .ok _ => isFalse fun hh => Except.noConfusion hh
  | .error e, .error f =>
    match decEq e f with
    | isTrue h => isTrue (h ▸ rfl)
    | isFalse h => isFalse fun hh => h (Except.error.inj hh)

/-- A concrete admissible idf weight used to evaluate the pipeline on
concrete inputs (every theorem below holds for all `idf`). -/
def idf1 : ℕ → ℕ → ℚ := fun _ _ => 1

/-! Basic facts about the vector arithmetic. -/

theorem dotp_nil_left (v : List ℚ) : dotp [] v = 0 := by simp [dotp]

theorem dotp_nil_right (u : List ℚ) : dotp u [] = 0 := by
  cases u <;> simp [dotp]

theorem dotp_cons (x y : ℚ) (xs ys : List ℚ) :
    dotp (x :: xs) (y :: ys) = x * y + dotp xs ys := by
  simp [dotp]

theorem normSq_cons (x : ℚ) (xs : List ℚ) :
    normSq (x :: xs) = x * x + normSq xs := by
  simp [normSq, dotp_cons]

theorem normSq_nonneg (u : List ℚ) : 0 ≤ normSq u := by
  induction u with
  | nil => simp [normSq, dotp_nil_left]
  | cons x xs ih => rw [normSq_cons]; nlinarith [mul_self_nonneg x]

theorem dotp_eq_zero_of_normSq_eq_zero :
    ∀ (u v : List ℚ), normSq u = 0 → dotp u v = 0 := by
  intro u
  induction u with
  | nil => intro v _; simp [dotp_nil_left]
  | cons x xs ih =>
    intro v h
    rw [normSq_cons] at h
    have hx : x = 0 ∧ normSq xs = 0 := by
      constructor
      · nlinarith [normSq_nonneg xs, mul_self_nonneg x]
      · nlinarith [normSq_nonneg xs, mul_self_nonneg x]
    cases v with
    | nil => simp [dotp_nil_right]
    | cons y ys => rw [dotp_cons, hx.1, ih ys hx.2]; ring

theorem dotp_sq_le (u v : List ℚ) : (dotp u v) ^ 2 ≤ normSq u * normSq v := by
  induction u generalizing v with
  | nil => simp [dotp_nil_left, normSq]
  | cons x xs ih =>
    cases v with
    | nil =>
      simp only [dotp_nil_right]
      have := normSq_nonneg (x :: xs)
      have := normSq_nonneg ([] : List ℚ)
      nlinarith
    | cons y ys =>
      have hd := ih ys
      have ha := normSq_nonneg xs
      have hb := normSq_nonneg ys
      rw [dotp_cons, normSq_cons, normSq_cons]
      rcases eq_or_lt_of_le hb with hb0 | hbpos
      · have hd0 : dotp xs ys = 0 := by nlinarith [sq_nonneg (dotp xs ys)]
        rw [hd0, ← hb0]
        nlinarith [mul_nonneg ha (mul_self_nonneg y)]
      · nlinarith [sq_nonneg (x * normSq ys - y * dotp xs ys),
          mul_nonneg (add_nonneg (mul_self_nonneg y) hb)
            (sub_nonneg.2 hd)]

theorem simSq_le_one (u v : List ℚ) : simSq u v ≤ 1 := by
  unfold simSq
  rcases eq_or_ne (normSq u * normSq v) 0 with h | h
  · simp [h]
  · have hpos : 0 < normSq u * normSq v :=
      lt_of_le_of_ne (mul_nonneg (normSq_nonneg u) (normSq_nonneg v)) (Ne.symm h)
    rw [div_le_one hpos]
    exact dotp_sq_le u v

theorem simSq_self (v : List ℚ) (h : normSq v ≠ 0) : simSq v v = 1 := by
  unfold simSq
  rw [show dotp v v = normSq v from rfl, sq]
  exact div_self (mul_ne_zero h h)

theorem simSq_zero_left (u v : List ℚ) (h : normSq u = 0) : simSq u v = 0 := by
  unfold simSq
  rw [dotp_eq_zero_of_normSq_eq_zero u v h]
  simp

theorem simSq_zero_right (u v : List ℚ) (h : normSq v = 0) : simSq u v = 0 := by
  unfold simSq
  rw [h, mul_zero]
  simp

/-! The specification of row-wise `argmax`: it returns the first index of
the maximum. -/

theorem argmax_spec : (l : List ℚ) → l ≠ [] →
    argmax l < l.length ∧
      (∀ j, j < l.length → l.getD j 0 ≤ l.getD (argmax l) 0) ∧
      (∀ j, j < argmax l → l.getD j 0 < l.getD (argmax l) 0)
  | [], h => absurd rfl h
  | [x], _ => by simp [argmax]
  | x :: y :: ys, _ => by
    have IH := argmax_spec (y :: ys) (by simp)
    set m : List ℚ := y :: ys with hm
    have hunf : argmax (x :: m) = if x < m.getD (argmax m) 0 then argmax m + 1 else 0 := by
      rw [hm]; rfl
    by_cases hx : x < m.getD (argmax m) 0
    · rw [hunf, if_pos hx]
      refine ⟨by simpa using Nat.succ_lt_succ IH.1, ?_, ?_⟩
      · intro j hj
        cases j with
        | zero => simpa using hx.le
        | succ j =>
          have hj' : j < m.length := by simpa using hj
          simpa using IH.2.1 j hj'
      · intro j hj
        cases j with
        | zero => simpa using hx
        | succ j =>
          have hj' : j < argmax m := by omega
          simpa using IH.2.2 j hj'
    · rw [hunf, if_neg hx]
      refine ⟨by simp, ?_, by omega⟩
      intro j hj
      cases j with
      | zero => simp
      | succ j =>
        have hj' : j < m.length := by simpa using hj
        have h1 := IH.2.1 j hj'
        have h2 : m.getD (argmax m) 0 ≤ x := not_lt.mp hx
        simpa using le_trans h1 h2

theorem argmax_lt_length (l : List ℚ) (h : l ≠ []) : argmax l < l.length :=
  (argmax_spec l h).1

/-! Python slice and indexing lemmas. -/

theorem pySlice_eq_take (n : Int) (l : List α) :
    pySlice n l = l.take (if 0 ≤ n then n.toNat else l.length - (-n).toNat) := by
  unfold pySlice
  split <;> rfl

theorem pySlice_subset (n : Int) (l : List α) : pySlice n l ⊆ l := by
  rw [pySlice_eq_take]
  exact List.take_subset _ _

theorem pySlice_length (n : Int) (l : List α) (h : 0 ≤ n) :
    (pySlice n l).length = min n.toNat l.length := by
  rw [pySlice_eq_take, if_pos h, List.length_take]

theorem pySlice_getD (n : Int) (l : List α) (i : ℕ) (d : α)
    (h : i < (pySlice n l).length) : (pySlice n l).getD i d = l.getD i d := by
  rw [pySlice_eq_take] at h ⊢
  rw [List.length_take] at h
  have hi : i < l.length := lt_of_lt_of_le h (min_le_right _ _)
  have h' : i < (if 0 ≤ n then n.toNat else l.length - (-n).toNat) :=
    lt_of_lt_of_le h (min_le_left _ _)
  rw [List.getD_eq_getElem _ _ (by rw [List.length_take]; omega),
    List.getD_eq_getElem _ _ hi]
  exact List.getElem_take _

theorem mapM_pyGetElem_ok_of (ps : List Program) :
    ∀ (l : List ℕ), (∀ i ∈ l, i < ps.length) →
      l.mapM (pyGetElem ps) = .ok (l.map fun i => ps.getD i noneProgram) := by
  intro l
  induction l with
  | nil => intro _; rfl
  | cons i l ih =>
    intro h
    have hi : i < ps.length := h i (by simp)
    have hrest := ih fun j hj => h j (by simp [hj])
    rw [List.mapM_cons, hrest]
    simp only [pyGetElem, dif_pos hi, Bind.bind, Except.bind, Pure.pure, Except.pure,
      List.map_cons]
    rw [List.getD_eq_getElem _ _ hi]

theorem mapM_pyGetElem_ok_inv (ps : List Program) :
    ∀ (l : List ℕ) (res : List Program), l.mapM (pyGetElem ps) = .ok res →
      (∀ i ∈ l, i < ps.length) ∧ res = l.map fun i => ps.getD i noneProgram := by
  intro l
  induction l with
  | nil =>
    intro res h
    have : res = [] := by
      have h' : Except.ok [] = (Except.ok res : Except String (List Program)) := h
      exact (Except.ok.inj h').symm
    simp [this]
  | cons i l ih =>
    intro res h
    rw [List.mapM_cons] at h
    by_cases hi : i < ps.length
    · simp only [pyGetElem, dif_pos hi] at h
      cases hm : l.mapM (pyGetElem ps) with
      | error e =>
        rw [hm] at h
        exact absurd h (by simp [Bind.bind, Except.bind])
      | ok bs =>
        rw [hm] at h
        have hres : res = ps[i] :: bs := by
          have h' : (Except.ok (ps[i] :: bs) : Except String (List Program)) = .ok res := by
            simpa [Bind.bind, Except.bind, Pure.pure, Except.pure] using h
          exact (Except.ok.inj h').symm
        obtain ⟨h1, h2⟩ := ih bs hm
        refine ⟨?_, ?_⟩
        · intro j hj
          rcases List.mem_cons.mp hj with rfl | hj'
          · exact hi
          · exact h1 j hj'
        · rw [hres, h2, List.map_cons, List.getD_eq_getElem _ _ hi]
    · simp only [pyGetElem, dif_neg hi] at h
      exact absurd h (by simp [Bind.bind, Except.bind])

/-! Structural lemmas about the pipeline. -/

theorem tfidf_length (idf : ℕ → ℕ → ℚ) (ps : List Program) :
    (tfidf_matrix idf ps).length = ps.length := by
  simp [tfidf_matrix, descriptions]

theorem mem_similarities (idf : ℕ → ℕ → ℚ) (ps : List Program) (cats : List String)
    (row : List ℚ) (h : row ∈ similarities idf ps cats) :
    row.length = ps.length ∧ ps ≠ [] := by
  unfold similarities at h
  obtain ⟨c, hc, rfl⟩ := List.mem_map.mp h
  refine ⟨by simp [tfidf_matrix, descriptions], ?_⟩
  unfold category_tfidf at hc
  obtain ⟨p, hp, _⟩ := List.mem_map.mp hc
  exact List.ne_nil_of_mem (List.mem_of_mem_filter hp)

theorem indices_lt (idf : ℕ → ℕ → ℚ) (ps : List Program) (cats : List String) :
    ∀ i ∈ similar_program_indices idf ps cats, i < ps.length := by
  intro i hi
  unfold similar_program_indices at hi
  obtain ⟨row, hrow, rfl⟩ := List.mem_map.mp hi
  obtain ⟨hlen, hne⟩ := mem_similarities idf ps cats row hrow
  have hrne : row ≠ [] := by
    intro h0
    rw [h0] at hlen
    exact hne (List.length_eq_zero.mp hlen.symm)
  have := argmax_lt_length row hrne
  omega

theorem indices_length (idf : ℕ → ℕ → ℚ) (ps : List Program) (cats : List String) :
    (similar_program_indices idf ps cats).length = (category_matches ps cats).length := by
  simp [similar_program_indices, similarities, category_tfidf]

theorem indices_nil_of_no_match (idf : ℕ → ℕ → ℚ) (ps : List Program)
    (cats : List String) (h : category_matches ps cats = []) :
    similar_program_indices idf ps cats = [] := by
  simp [similar_program_indices, similarities, category_tfidf, h]

theorem recommend_ok_eq (idf : ℕ → ℕ → ℚ) (ps : List Program) (cats : List String)
    (top_n : Int) (res : List Program)
    (h : generate_recommendations idf ps cats top_n = .ok res) :
    res = (pySlice top_n (similar_program_indices idf ps cats)).map
      fun i => ps.getD i noneProgram := by
  unfold generate_recommendations at h
  split at h
  next hps =>
    have hps' : ps = [] := List.isEmpty_iff.mp hps
    subst hps'
    have hres : res = [] := (Except.ok.inj h).symm
    subst hres
    have : category_matches ([] : List Program) cats = [] := rfl
    rw [indices_nil_of_no_match idf [] cats this, pySlice_eq_take]
    simp
  next hps =>
    split at h
    next => exact absurd h (by simp)
    next hvoc =>
      split at h
      next hcm =>
        have hres : res = [] := (Except.ok.inj h).symm
        subst hres
        rw [indices_nil_of_no_match idf ps cats (List.isEmpty_iff.mp hcm), pySlice_eq_take]
        simp
      next hcm => exact (mapM_pyGetElem_ok_inv ps _ res h).2

theorem recommend_ok_or_emptyvocab (idf : ℕ → ℕ → ℚ) (ps : List Program)
    (cats : List String) (top_n : Int) :
    (∃ l, generate_recommendations idf ps cats top_n = .ok l) ∨
      generate_recommendations idf ps cats top_n = .error emptyVocabularyError := by
  unfold generate_recommendations
  split
  · exact Or.inl ⟨[], rfl⟩
  · split
    · exact Or.inr rfl
    · split
      · exact Or.inl ⟨[], rfl⟩
      · exact Or.inl ⟨_, mapM_pyGetElem_ok_of ps _
          fun i hi => indices_lt idf ps cats i (pySlice_subset _ _ hi)⟩

theorem descriptions_getD (ps : List Program) (i : ℕ) (hi : i < ps.length) :
    (descriptions ps).getD i "" = desc (ps.getD i noneProgram) := by
  rw [List.getD_eq_getElem _ _ (by simpa [descriptions] using hi),
    List.getD_eq_getElem _ _ hi]
  simp [descriptions]

theorem tfidf_getD (idf : ℕ → ℕ → ℚ) (ps : List Program) (i : ℕ)
    (hi : i < ps.length) :
    (tfidf_matrix idf ps).getD i [] =
      vecOf idf (descriptions ps) (desc (ps.getD i noneProgram)) := by
  rw [List.getD_eq_getElem _ _ (by rw [tfidf_length]; exact hi)]
  unfold tfidf_matrix
  rw [List.getElem_map, ← descriptions_getD ps i hi,
    List.getD_eq_getElem _ _ (by simpa [descriptions] using hi)]

theorem similarities_getD (idf : ℕ → ℕ → ℚ) (ps : List Program) (cats : List String)
    (k : ℕ) (hk : k < (category_matches ps cats).length) :
    (similarities idf ps cats).getD k [] =
      (tfidf_matrix idf ps).map
        (simSq (vecOf idf (descriptions ps)
          (desc ((category_matches ps cats).getD k noneProgram)))) := by
  have hk' : k < (similarities idf ps cats).length := by
    simpa [similarities, category_tfidf] using hk
  rw [List.getD_eq_getElem _ _ hk']
  unfold similarities category_tfidf
  rw [List.getElem_map, List.getElem_map, List.getD_eq_getElem _ _ hk]

theorem indices_getD (idf : ℕ → ℕ → ℚ) (ps : List Program) (cats : List String)
    (k : ℕ) (hk : k < (category_matches ps cats).length) :
    (similar_program_indices idf ps cats).getD k 0 =
      argmax ((similarities idf ps cats).getD k []) := by
  have hk' : k < (similarities idf ps cats).length := by
    simpa [similarities, category_tfidf] using hk
  rw [List.getD_eq_getElem _ _ (by simpa [similar_program_indices] using hk'),
    List.getD_eq_getElem _ _ hk']
  unfold similar_program_indices
  rw [List.getElem_map]

theorem mapped_row_getD (idf : ℕ → ℕ → ℚ) (ps : List Program) (v : List ℚ) (j : ℕ)
    (hj : j < ps.length) :
    ((tfidf_matrix idf ps).map (simSq v)).getD j 0 =
      simSq v ((tfidf_matrix idf ps).getD j []) := by
  have hj' : j < (tfidf_matrix idf ps).length := by rw [tfidf_length]; exact hj
  rw [List.getD_eq_getElem _ _ (by simpa using hj'), List.getD_eq_getElem _ _ hj',
    List.getElem_map]

/-! Claim C1. -/

/-- Claim C1, counterexample: a catalog whose only synthesized text consists of
English stopwords makes the vectorizer raise the empty-vocabulary `ValueError`,
so `recommend` does not return a list there, contrary to the claim. -/
theorem c1_empty_vocabulary_raises :
    generate_recommendations idf1 [⟨some "the of and", none, none, none⟩] ["aa"] 5 =
      .error emptyVocabularyError := by
  with_unfolding_all decide

/-- Claim C1 (amended): the similarity computation itself never raises — a
document with an all-zero feature vector has cosine similarity `0` with
everything — and `recommend` returns a (possibly empty) list on every input
except that, when the vocabulary is empty after tokenization and stopword
removal (and the catalog is nonempty), fitting raises the empty-vocabulary
`ValueError`; that is the only error. -/
theorem c1_similarity_never_raises :
    (∀ (idf : ℕ → ℕ → ℚ) (ps : List Program) (cats : List String) (top_n : Int),
        (∃ l, generate_recommendations idf ps cats top_n = .ok l) ∨
          generate_recommendations idf ps cats top_n = .error emptyVocabularyError)
    ∧ ∀ u v : List ℚ, normSq u = 0 ∨ normSq v = 0 → simSq u v = 0 := by
  refine ⟨recommend_ok_or_emptyvocab, ?_⟩
  intro u v h
  rcases h with h | h
  · exact simSq_zero_left u v h
  · exact simSq_zero_right u v h

/-- Claim C1, witness: the zero-vector part of the amended claim at a concrete
input. -/
theorem c1_similarity_never_raises_witness : simSq [0] [5] = 0 :=
  c1_similarity_never_raises.2 [0] [5] (Or.inl (by with_unfolding_all decide))

/-! Claim C2. -/

/-- Claim C2, counterexample: a recommended record lacking `name` (but having
`category` and `venue`) also raises a lookup error in the printer, contrary to
the claim that only `venue` fails loudly. -/
theorem c2_missing_name_raises :
    printProgram ⟨none, some "fitness", none, some "Gym A"⟩ =
      .error "KeyError: name" := rfl

/-- Claim C2 (amended): the printer accesses `name`, `category` and `venue`
strictly (in that order), so the absence of any of those three raises a lookup
error at output time; only `notes` is never accessed, and its absence never
changes the printed result. -/
theorem c2_printer_field_access :
    ∀ p : Program,
      ((∃ s, printProgram p = .ok s) ↔
        p.name ≠ none ∧ p.category ≠ none ∧ p.venue ≠ none)
      ∧ ∀ n : Option String, printProgram { p with notes := n } = printProgram p := by
  intro p
  obtain ⟨n, c, no, v⟩ := p
  cases n <;> cases c <;> cases v <;> simp [printProgram]

/-! Claim C3. -/

/-- Claim C3, counterexample: with `top_n = -1` and two identical matching
records, `recommend` returns one record (the Python slice `[:-1]` drops only
the last entry), not the empty list; and with `top_n = 0` but an all-stopword
catalog, `recommend` raises the empty-vocabulary error instead of returning
the empty list. -/
theorem c3_nonpositive_top_n_counterexample :
    generate_recommendations idf1
        [⟨some "apple", some "aa", none, none⟩, ⟨some "apple", some "aa", none, none⟩]
        ["aa"] (-1) =
      .ok [⟨some "apple", some "aa", none, none⟩]
    ∧ generate_recommendations idf1 [⟨some "the", none, none, none⟩] ["aa"] 0 =
      .error emptyVocabularyError := by
  constructor <;> with_unfolding_all decide

/-- Claim C3 (amended): with `top_n = 0`, `recommend` returns the empty list
whenever vectorization succeeds; when the vocabulary is empty it raises the
empty-vocabulary error instead.  Negative `top_n` is not guarded: the Python
slice drops the last `|top_n|` best matches rather than returning `[]`. -/
theorem c3_top_n_zero_empty :
    ∀ (idf : ℕ → ℕ → ℚ) (ps : List Program) (cats : List String),
      generate_recommendations idf ps cats 0 = .ok [] ∨
        generate_recommendations idf ps cats 0 = .error emptyVocabularyError := by
  intro idf ps cats
  rcases recommend_ok_or_emptyvocab idf ps cats 0 with ⟨l, hl⟩ | h
  · left
    have heq := recommend_ok_eq idf ps cats 0 l hl
    simp [pySlice_eq_take] at heq
    rw [heq] at hl
    exact hl
  · right
    exact h

/-! Claim C4. -/

/-- Claim C4, counterexample: with `top_n = -1` the result has one element,
but the minimum of `top_n` and the candidate count is `-1`, so the claimed
bound fails for negative `top_n`. -/
theorem c4_length_bound_fails_for_negative :
    generate_recommendations idf1
        [⟨some "pear", some "cc", none, none⟩, ⟨some "pear", some "cc", none, none⟩]
        ["cc"] (-1) =
      .ok [⟨some "pear", some "cc", none, none⟩]
    ∧ ¬((([(⟨some "pear", some "cc", none, none⟩ : Program)] : List Program).length : Int) ≤
        min (-1 : Int)
          ((category_matches
              [⟨some "pear", some "cc", none, none⟩, ⟨some "pear", some "cc", none, none⟩]
              ["cc"]).length : Int)) := by
  constructor <;> with_unfolding_all decide

/-- Claim C4 (amended): for every nonnegative `top_n`, whenever `recommend`
returns a list its length is at most the minimum of `top_n` and the number of
catalog records whose category matches a desired category. -/
theorem c4_result_length_le_min :
    ∀ (idf : ℕ → ℕ → ℚ) (ps : List Program) (cats : List String) (top_n : Int)
      (res : List Program),
      0 ≤ top_n → generate_recommendations idf ps cats top_n = .ok res →
        res.length ≤ min top_n.toNat (category_matches ps cats).length := by
  intro idf ps cats top_n res htop h
  rw [recommend_ok_eq idf ps cats top_n res h, List.length_map,
    pySlice_length _ _ htop, indices_length]

/-- Claim C4, witness: the amended bound applied at a concrete input. -/
theorem c4_result_length_le_min_witness :
    ([⟨some "apple", some "aa", none, none⟩,
      ⟨some "apple", some "aa", none, none⟩] : List Program).length ≤
      min ((5 : Int).toNat)
        (category_matches
          [⟨some "apple", some "aa", none, none⟩, ⟨some "apple", some "aa", none, none⟩]
          ["aa"]).length :=
  c4_result_length_le_min idf1
    [⟨some "apple", some "aa", none, none⟩, ⟨some "apple", some "aa", none, none⟩]
    ["aa"] 5
    [⟨some "apple", some "aa", none, none⟩, ⟨some "apple", some "aa", none, none⟩]
    (by decide) (by with_unfolding_all decide)

/-! Claim C6. -/

/-- Claim C6 (confirmed): for every candidate (row `k` of the similarity
matrix), the selected catalog index attains the maximum similarity of the row
and every strictly smaller index has strictly smaller similarity — the stable
argmax with ties broken toward the lowest index.  (Entries of `similarities`
are squared cosine similarities; squaring is strictly monotone on the
nonnegative similarity values, so maximality and strictness transfer.) -/
theorem c6_selected_index_is_first_argmax :
    ∀ (idf : ℕ → ℕ → ℚ) (ps : List Program) (cats : List String) (k : ℕ),
      k < (similarities idf ps cats).length →
      (similar_program_indices idf ps cats).getD k 0 <
          ((similarities idf ps cats).getD k []).length
        ∧ (∀ j, j < ((similarities idf ps cats).getD k []).length →
            ((similarities idf ps cats).getD k []).getD j 0 ≤
              ((similarities idf ps cats).getD k []).getD
                ((similar_program_indices idf ps cats).getD k 0) 0)
        ∧ ∀ j, j < (similar_program_indices idf ps cats).getD k 0 →
            ((similarities idf ps cats).getD k []).getD j 0 <
              ((similarities idf ps cats).getD k []).getD
                ((similar_program_indices idf ps cats).getD k 0) 0 := by
  intro idf ps cats k hk
  have hk' : k < (category_matches ps cats).length := by
    simpa [similarities, category_tfidf] using hk
  have hrow_mem : (similarities idf ps cats).getD k [] ∈ similarities idf ps cats := by
    rw [List.getD_eq_getElem _ _ hk]
    exact List.getElem_mem _
  obtain ⟨hlen, hne⟩ := mem_similarities idf ps cats _ hrow_mem
  have hrne : (similarities idf ps cats).getD k [] ≠ [] := by
    intro h0
    rw [h0] at hlen
    exact hne (List.length_eq_zero.mp hlen.symm)
  rw [indices_getD idf ps cats k hk']
  exact argmax_spec _ hrne

/-- Claim C6, witness: the stable-argmax property applied to the first row of
a concrete similarity matrix. -/
theorem c6_selected_index_is_first_argmax_witness :
    (similar_program_indices idf1
        [⟨some "alpha", some "aa", none, none⟩, ⟨some "beta", some "aa", none, none⟩]
        ["aa"]).getD 0 0 <
      ((similarities idf1
        [⟨some "alpha", some "aa", none, none⟩, ⟨some "beta", some "aa", none, none⟩]
        ["aa"]).getD 0 []).length :=
  (c6_selected_index_is_first_argmax idf1
    [⟨some "alpha", some "aa", none, none⟩, ⟨some "beta", some "aa", none, none⟩]
    ["aa"] 0 (by with_unfolding_all decide)).1

/-! Claim C7. -/

/-- Claim C7 (confirmed): the returned list preserves candidate order — its
`i`-th element is the catalog record at the index selected for the `i`-th
candidate (never reordered by score) — and for nonnegative `top_n` its length
is the minimum of `top_n` and the candidate count, i.e. the best-match list
truncated to the first `top_n` entries. -/
theorem c7_result_preserves_candidate_order :
    ∀ (idf : ℕ → ℕ → ℚ) (ps : List Program) (cats : List String) (top_n : Int)
      (res : List Program),
      generate_recommendations idf ps cats top_n = .ok res →
        (∀ i, i < res.length →
            res.getD i noneProgram =
              ps.getD ((similar_program_indices idf ps cats).getD i 0) noneProgram)
        ∧ (0 ≤ top_n →
            res.length = min top_n.toNat (category_matches ps cats).length) := by
  intro idf ps cats top_n res h
  have heq := recommend_ok_eq idf ps cats top_n res h
  constructor
  · intro i hi
    rw [heq] at hi ⊢
    rw [List.length_map] at hi
    rw [List.getD_eq_getElem _ _ (by simpa using hi), List.getElem_map]
    congr 1
    rw [← pySlice_getD top_n _ i 0 hi, List.getD_eq_getElem _ _ hi]
  · intro htop
    rw [heq, List.length_map, pySlice_length _ _ htop, indices_length]

/-- Claim C7, witness: the truncation part of the claim at the spec's
three-record scenario with `top_n = 2`. -/
theorem c7_result_preserves_candidate_order_witness :
    ([⟨some "Yoga", some "fitness", some "morning class", some "Gym A"⟩,
      ⟨some "Pilates", some "fitness", some "evening class", some "Gym B"⟩] :
        List Program).length =
      min ((2 : Int).toNat)
        (category_matches
          [⟨some "Yoga", some "fitness", some "morning class", some "Gym A"⟩,
           ⟨some "Pilates", some "fitness", some "evening class", some "Gym B"⟩,
           ⟨some "Chess Club", some "games", some "weekly meetup", some "Hall C"⟩]
          ["fitness"]).length :=
  (c7_result_preserves_candidate_order idf1
    [⟨some "Yoga", some "fitness", some "morning class", some "Gym A"⟩,
     ⟨some "Pilates", some "fitness", some "evening class", some "Gym B"⟩,
     ⟨some "Chess Club", some "games", some "weekly meetup", some "Hall C"⟩]
    ["fitness"] 2
    [⟨some "Yoga", some "fitness", some "morning class", some "Gym A"⟩,
     ⟨some "Pilates", some "fitness", some "evening class", some "Gym B"⟩]
    (by with_unfolding_all decide)).2 (by decide)

/-! Claim C8. -/

/-- Claim C8, counterexample: a nonempty catalog whose only text tokenizes to
stopwords raises the empty-vocabulary error before ever reaching the
no-category-match branch, so the no-match case does not always return an
empty list without raising. -/
theorem c8_no_match_still_raises :
    category_matches [⟨some "was", some "a", none, none⟩] ["zz"] = []
    ∧ generate_recommendations idf1 [⟨some "was", some "a", none, none⟩] ["zz"] 3 =
      .error emptyVocabularyError := by
  constructor <;> with_unfolding_all decide

/-- Claim C8 (amended): an empty catalog yields the empty list with the
no-programs note; a nonempty vocabulary with no category match yields the
empty list with a note naming the requested categories.  When every document
tokenizes to nothing, the vectorizer raises before the no-match check. -/
theorem c8_empty_catalog_no_match :
    ∀ (idf : ℕ → ℕ → ℚ) (ps : List Program) (cats : List String) (top_n : Int),
      (ps = [] →
        generate_recommendations idf ps cats top_n = .ok []
        ∧ generate_notes ps cats = [Note.noPrograms])
      ∧ (vocab (descriptions ps) ≠ [] → category_matches ps cats = [] →
        generate_recommendations idf ps cats top_n = .ok []
        ∧ Note.noneFound cats ∈ generate_notes ps cats) := by
  intro idf ps cats top_n
  constructor
  · rintro rfl
    exact ⟨rfl, rfl⟩
  · intro hvoc hcm
    by_cases hps : ps = []
    · exact absurd (by rw [hps]; rfl) hvoc
    · have h1 : ps.isEmpty = false := by simpa [List.isEmpty_iff] using hps
      have h2 : (vocab (descriptions ps)).isEmpty = false := by
        simpa [List.isEmpty_iff] using hvoc
      have h3 : (category_matches ps cats).isEmpty = true := by
        simpa [List.isEmpty_iff] using hcm
      unfold generate_recommendations generate_notes
      simp [h1, h2, h3]

/-- Claim C8, witness: the no-match branch of the amended claim at a concrete
input whose vocabulary is nonempty. -/
theorem c8_empty_catalog_no_match_witness :
    generate_recommendations idf1 [⟨some "apple", some "bb", none, none⟩] ["zz"] 7 =
      .ok [] :=
  ((c8_empty_catalog_no_match idf1 [⟨some "apple", some "bb", none, none⟩] ["zz"] 7).2
    (by with_unfolding_all decide) (by with_unfolding_all decide)).1

/-! Claim C9. -/

theorem matchesCat_dedup (cats : List String) (p : Program) :
    matchesCat cats.dedup p = matchesCat cats p := by
  unfold matchesCat
  cases p.category with
  | none => rfl
  | some c => by_cases h : c ∈ cats <;> simp [List.elem_eq_mem, h]

/-- Claim C9 (confirmed): removing duplicate category labels from the desired
categories never changes the value returned by `recommend` (membership is all
that is tested). -/
theorem c9_duplicate_categories_irrelevant :
    ∀ (idf : ℕ → ℕ → ℚ) (ps : List Program) (cats : List String) (top_n : Int),
      generate_recommendations idf ps cats.dedup top_n =
        generate_recommendations idf ps cats top_n := by
  intro idf ps cats top_n
  have hcm : category_matches ps cats.dedup = category_matches ps cats := by
    unfold category_matches
    exact List.filter_congr fun p _ => matchesCat_dedup cats p
  unfold generate_recommendations similar_program_indices similarities category_tfidf
  rw [hcm]

/-! Claim C10. -/

/-- Claim C10 (confirmed): every element of a returned list is a record of the
catalog, yet it need not be a candidate — there is an input on which the
single returned record's category is not among the desired categories. -/
theorem c10_result_in_catalog_not_candidates :
    (∀ (idf : ℕ → ℕ → ℚ) (ps : List Program) (cats : List String) (top_n : Int)
        (res : List Program),
        generate_recommendations idf ps cats top_n = .ok res → ∀ r ∈ res, r ∈ ps)
    ∧ generate_recommendations idf1
        [⟨some "apple", some "b", none, none⟩, ⟨some "apple", some "a", none, none⟩]
        ["a"] 5 =
      .ok [⟨some "apple", some "b", none, none⟩]
    ∧ matchesCat ["a"] ⟨some "apple", some "b", none, none⟩ = false := by
  refine ⟨?_, by with_unfolding_all decide, by decide⟩
  intro idf ps cats top_n res h r hr
  rw [recommend_ok_eq idf ps cats top_n res h] at hr
  obtain ⟨i, hi, rfl⟩ := List.mem_map.mp hr
  have hilt : i < ps.length := indices_lt idf ps cats i (pySlice_subset _ _ hi)
  rw [List.getD_eq_getElem _ _ hilt]
  exact List.getElem_mem _

/-- Claim C10, witness: the membership part applied at a concrete input. -/
theorem c10_result_in_catalog_witness :
    (⟨some "apple", some "b", none, none⟩ : Program) ∈
      ([⟨some "apple", some "b", none, none⟩, ⟨some "apple", some "a", none, none⟩] :
        List Program) :=
  c10_result_in_catalog_not_candidates.1 idf1
    [⟨some "apple", some "b", none, none⟩, ⟨some "apple", some "a", none, none⟩]
    ["a"] 5 [⟨some "apple", some "b", none, none⟩]
    (by with_unfolding_all decide) _ (by simp)

/-! Claim C5. -/

/-- Claim C5, counterexample: the second record's synthesized text `" a "` is
unique in the catalog, yet it tokenizes to nothing, its feature vector is
all-zero, its similarity row is all zeros, and the argmax selects catalog
index `0` — not the candidate's own index `1`; the returned record is the
first one.  Text uniqueness therefore does not guarantee self-matching. -/
theorem c5_unique_text_not_self_match :
    category_matches
        [⟨some "apple", some "b", none, none⟩, ⟨none, some "a", none, none⟩] ["a"] =
      [⟨none, some "a", none, none⟩]
    ∧ desc ⟨some "apple", some "b", none, none⟩ ≠ desc ⟨none, some "a", none, none⟩
    ∧ similar_program_indices idf1
        [⟨some "apple", some "b", none, none⟩, ⟨none, some "a", none, none⟩] ["a"] =
      [0]
    ∧ generate_recommendations idf1
        [⟨some "apple", some "b", none, none⟩, ⟨none, some "a", none, none⟩] ["a"] 5 =
      .ok [⟨some "apple", some "b", none, none⟩] := by
  refine ⟨?_, ?_, ?_, ?_⟩ <;> with_unfolding_all decide

/-- Claim C5 (amended): a candidate at catalog index `i` whose tf-idf vector
is nonzero, and such that no earlier catalog record has (squared) cosine
similarity `1` to it, best-matches itself: the index selected in step 6 for
any candidate with that synthesized text is `i`.  (Uniqueness of the text
alone does not suffice: an all-stopword text gives a zero vector, and two
distinct texts can give proportional vectors.) -/
theorem c5_nonzero_candidate_self_match :
    ∀ (idf : ℕ → ℕ → ℚ) (ps : List Program) (cats : List String) (i : ℕ),
      i < ps.length →
      matchesCat cats (ps.getD i noneProgram) = true →
      normSq ((tfidf_matrix idf ps).getD i []) ≠ 0 →
      (∀ j, j < i →
        simSq ((tfidf_matrix idf ps).getD i []) ((tfidf_matrix idf ps).getD j []) ≠ 1) →
      ∀ k, k < (category_matches ps cats).length →
        desc ((category_matches ps cats).getD k noneProgram) =
          desc (ps.getD i noneProgram) →
        (similar_program_indices idf ps cats).getD k 0 = i := by
  intro idf ps cats i hi hcat hnz hne k hk hdesc
  rw [indices_getD idf ps cats k hk, similarities_getD idf ps cats k hk, hdesc,
    ← tfidf_getD idf ps i hi]
  set v := (tfidf_matrix idf ps).getD i [] with hv
  set row := (tfidf_matrix idf ps).map (simSq v) with hrow
  have hrowlen : row.length = ps.length := by
    rw [hrow, List.length_map, tfidf_length]
  have hrne : row ≠ [] := by
    intro h0
    rw [h0] at hrowlen
    simp at hrowlen
    omega
  have hspec := argmax_spec row hrne
  set a := argmax row with ha
  have hgetD : ∀ j, j < ps.length →
      row.getD j 0 = simSq v ((tfidf_matrix idf ps).getD j []) := by
    intro j hj
    rw [hrow]
    exact mapped_row_getD idf ps v j hj
  have hrow_i : row.getD i 0 = 1 := by
    rw [hgetD i hi, ← hv]
    exact simSq_self v hnz
  have ha_lt : a < ps.length := by
    rw [← hrowlen]
    exact hspec.1
  have hmax_ge : row.getD i 0 ≤ row.getD a 0 :=
    hspec.2.1 i (by rw [hrowlen]; exact hi)
  have hrow_a : row.getD a 0 = 1 := by
    refine le_antisymm ?_ ?_
    · rw [hgetD a ha_lt]
      exact simSq_le_one _ _
    · rw [← hrow_i]
      exact hmax_ge
  rcases lt_trichotomy a i with h | h | h
  · exfalso
    have h1 := hrow_a
    rw [hgetD a ha_lt] at h1
    exact hne a h h1
  · exact h
  · exfalso
    have h2 := hspec.2.2 i h
    rw [hrow_i, hrow_a] at h2
    exact lt_irrefl 1 h2

/-- Claim C5, witness: a candidate with a nonzero vector orthogonal to the
only earlier record best-matches itself at a concrete input. -/
theorem c5_nonzero_candidate_self_match_witness :
    (similar_program_indices idf1
        [⟨some "alpha", some "bb", none, none⟩, ⟨some "beta", some "aa", none, none⟩]
        ["aa"]).getD 0 0 = 1 :=
  c5_nonzero_candidate_self_match idf1
    [⟨some "alpha", some "bb", none, none⟩, ⟨some "beta", some "aa", none, none⟩]
    ["aa"] 1 (by decide) (by with_unfolding_all decide) (by with_unfolding_all decide)
    (by with_unfolding_all decide) 0 (by with_unfolding_all decide)
    (by with_unfolding_all decide)

